import Mathlib

/-!
Verification of the Slack tag-mapper core (`SlackService` in the proxy-backed
client, plus the mapping-persistence endpoint of `server.js`).

The embedding models the live code path of `SlackService`:
`getChannelMembers` (paginated member enumeration), `getUserInfo`
(per-identifier profile resolution), `mapUserTagsToIds` (reconciliation),
`getStoredMappings` / `storeMappings` (client side of persistence), and the
server-side merge performed by the `POST /api/mappings` handler.

Network effects are made explicit: each definition takes the outcomes the
environment would produce (page responses in request order, a per-identifier
profile-lookup outcome, read/write outcomes of the persistence endpoint) and
computes exactly what the code computes from them.  The demo-token shortcut
(tokens starting with `xoxb-demo` return canned mock data before any request
is issued) is a configuration bypass exercised by none of the verified
properties and is not modelled; every function below is the non-demo branch.

JavaScript truthiness on the few spots the code relies on it (`while (cursor)`,
`data.error || 'Unknown error'`, `existing?.addedOn || newMapping.addedOn`,
`if (realName)`) is modelled by explicit helpers (`jsTruthy`, `jsOrStr`,
`jsOrOpt`): `undefined` and the empty string are the falsy string values.
-/

/-- Resolved profile attributes of one Slack user (`SlackUserProfile`). -/
structure SlackUserProfile where
  real_name : String
  display_name : String
deriving DecidableEq

/-- A resolved Slack user (`SlackUser`). -/
structure SlackUser where
  id : String
  name : String
  profile : SlackUserProfile
  is_bot : Bool
  deleted : Bool
deriving DecidableEq

/-- Body of one `conversations.members` page (`SlackMembersResponse`).
`members := none` models a response that omits the member-list field;
`next_cursor := none` models an absent `response_metadata.next_cursor`. -/
structure SlackMembersResponse where
  members : Option (List String)
  next_cursor : Option String
  ok : Bool
  error : Option String
deriving DecidableEq

/-- Body of one `users.info` response (`SlackUserResponse`).
`user := none` models a payload missing the `user` field (the reconciler
guards with `if (userInfo && ...)`). -/
structure SlackUserResponse where
  user : Option SlackUser
  ok : Bool
  error : Option String
deriving DecidableEq

/-- The persisted unit (`UserMapping`); `addedOn` is optional in the source. -/
structure UserMapping where
  realName : String
  slackTag : String
  userId : String
  addedOn : Option String
deriving DecidableEq

/-- JS truthiness of a `string | undefined` value: `undefined` and `""` are
falsy.  Used for `while (cursor)`. -/
def jsTruthy : Option String → Bool
  | none => false
  | some s => s != ""

/-- JS `x || y` for `x : string | undefined` with a string default `y`
(used for `data.error || 'Unknown error'`). -/
def jsOrStr : Option String → String → String
  | none, y => y
  | some s, y => if s = "" then y else s

/-- JS `x || y` where both sides are `string | undefined`
(used by the server merge: `existing?.addedOn || newMapping.addedOn`). -/
def jsOrOpt : Option String → Option String → Option String
  | none, y => y
  | some s, y => if s = "" then y else some s

/-- Outcome of one `fetch` of a `conversations.members` page, as the
environment would deliver it: the request is rejected before a response
(`fetchFail`, a thrown `TypeError` whose message is carried), the response
arrives with a non-OK HTTP status (`httpFail`, carrying `statusText`), or a
JSON payload arrives (`reply`). -/
inductive PageOutcome where
  | fetchFail (msg : String)
  | httpFail (statusText : String)
  | reply (data : SlackMembersResponse)
deriving DecidableEq

/-- The catch block of `getChannelMembers` rewrites the browser's
`TypeError: Failed to fetch` into an actionable proxy-connection message and
rethrows every other error unchanged.  Only a rejected `fetch` produces a
`TypeError`, so the rewrite is applied at the `fetchFail` site. -/
def remapFetchFailure (msg : String) : String :=
  if msg = "Failed to fetch" then
    "Failed to connect to proxy server. Make sure your server is running on http://localhost:3001. Run node server.js in a separate terminal window before using this app."
  else msg

/-- The `do/while` pagination loop of `getChannelMembers`: one list element is
consumed per request issued; members accumulate by concatenation and the loop
continues exactly while the returned cursor is truthy.  Returns the
accumulated members together with the number of requests issued.  The `[]`
case models an environment that stops answering (never reached when the
outcome list covers the loop). -/
def getMembersLoop : List String → List PageOutcome → Except String (List String × Nat)
  | _, [] => Except.error "no further response from server"
  | _, PageOutcome.fetchFail msg :: _ => Except.error (remapFetchFailure msg)
  | _, PageOutcome.httpFail st :: _ =>
      Except.error ("Failed to fetch members: " ++ st)
  | acc, PageOutcome.reply data :: rest =>
      if data.ok then
        match data.members with
        | none => Except.error "No members found in response"
        | some ms =>
            if jsTruthy data.next_cursor then
              match getMembersLoop (acc ++ ms) rest with
              | Except.ok (l, n) => Except.ok (l, n + 1)
              | Except.error e => Except.error e
            else Except.ok (acc ++ ms, 1)
      else Except.error ("Slack API error: " ++ jsOrStr data.error "Unknown error")

/-- Model of `SlackService.getChannelMembers`, live path: run the pagination loop with
an empty accumulator over the page outcomes the proxy would deliver. -/
def getChannelMembers (pages : List PageOutcome) : Except String (List String × Nat) :=
  getMembersLoop [] pages

/-- Outcome of the single `users.info` fetch for one identifier. -/
inductive UserInfoOutcome where
  | fetchFail (msg : String)
  | httpFail (statusText : String)
  | reply (data : SlackUserResponse)
deriving DecidableEq

/-- Model of `SlackService.getUserInfo`, live path: throws on transport failure,
non-OK HTTP status or `ok: false` payload, otherwise returns the payload's
`user` field (which may be absent). -/
def getUserInfo : UserInfoOutcome → Except String (Option SlackUser)
  | UserInfoOutcome.fetchFail msg => Except.error msg
  | UserInfoOutcome.httpFail st => Except.error ("Failed to fetch user info: " ++ st)
  | UserInfoOutcome.reply data =>
      if data.ok then Except.ok data.user
      else Except.error ("Slack API error: " ++ jsOrStr data.error "Unknown error")

/-- Outcome of the client's `GET /api/mappings` (`getStoredMappings`):
the fetch is rejected, the response status is non-OK, or a mapping list
arrives. -/
inductive ReadOutcome where
  | fetchFail (msg : String)
  | httpFail
  | replied (mappings : List UserMapping)

/-- Model of `SlackService.getStoredMappings`: every failure is caught and the
function returns the empty list instead of throwing. -/
def getStoredMappings : ReadOutcome → List UserMapping
  | ReadOutcome.replied l => l
  | ReadOutcome.fetchFail _ => []
  | ReadOutcome.httpFail => []

/-- Outcome of the client's `POST /api/mappings` (`storeMappings`): the fetch
is rejected, the response status is non-OK (carrying the error body's
`error` field), or a response body with a `success` flag arrives. -/
inductive StoreOutcome where
  | fetchFail (msg : String)
  | httpFail (errorField : Option String)
  | replied (success : Bool)
deriving DecidableEq

/-- Model of `SlackService.storeMappings`: rethrows on rejected fetch, throws the
response's error (or a default) on non-OK status, and throws when the server
reports `success: false`. -/
def storeMappings : StoreOutcome → Except String Unit
  | StoreOutcome.fetchFail msg => Except.error msg
  | StoreOutcome.httpFail e => Except.error (jsOrStr e "Failed to store mappings on server")
  | StoreOutcome.replied success =>
      if success then Except.ok () else Except.error "Server returned unsuccessful response"

/-- The body of the per-identifier loop of `SlackService.mapUserTagsToIds`:
resolve the profile (a lookup failure is caught, logged and skipped), drop
deleted accounts, bots, and users whose `real_name` is the empty string
(`real_name || ''` is the identity on a string that is never `undefined`,
and `if (realName)` tests string truthiness), otherwise push one mapping
whose `addedOn` is today for a `userId` not yet in `existingMappings` and the
first existing record's `addedOn` otherwise. -/
def processMember (lookup : String → UserInfoOutcome) (existingMappings : List UserMapping)
    (today : String) (userId : String) : List UserMapping :=
  match getUserInfo (lookup userId) with
  | Except.error _ => []
  | Except.ok none => []
  | Except.ok (some userInfo) =>
      if !userInfo.deleted && !userInfo.is_bot then
        if userInfo.profile.real_name != "" then
          [{ realName := userInfo.profile.real_name,
             slackTag := "@" ++ userInfo.name,
             userId := userId,
             addedOn :=
               if !((existingMappings.map (fun m => m.userId)).contains userId)
               then some today
               else (existingMappings.find? (fun m => m.userId == userId)).bind
                      (fun m => m.addedOn) }]
        else []
      else []

/-- The per-identifier loop of `mapUserTagsToIds` over the whole enumeration:
emissions are pushed in enumeration order. -/
def processMembers (lookup : String → UserInfoOutcome) (existingMappings : List UserMapping)
    (today : String) : List String → List UserMapping
  | [] => []
  | u :: rest =>
      processMember lookup existingMappings today u ++
        processMembers lookup existingMappings today rest

/-- Model of `SlackService.mapUserTagsToIds`, live path: enumerate members (failure
propagates), read the stored mapping set (failure recovered to `[]` inside
`getStoredMappings`), reconcile each member in order, persist the result
(failure propagates), and return it. -/
def mapUserTagsToIds (pages : List PageOutcome) (lookup : String → UserInfoOutcome)
    (readO : ReadOutcome) (writeO : List UserMapping → StoreOutcome)
    (today : String) : Except String (List UserMapping) :=
  match getChannelMembers pages with
  | Except.error e => Except.error e
  | Except.ok (members, _) =>
      let existingMappings := getStoredMappings readO
      let userMappings := processMembers lookup existingMappings today members
      match storeMappings (writeO userMappings) with
      | Except.error e => Except.error e
      | Except.ok _ => Except.ok userMappings

/-- The merge performed by the server's `POST /api/mappings` handler
(`server.js`): the file is rewritten with exactly the posted mappings, each
taking the previously stored record's `addedOn` when that is truthy and its
own otherwise. -/
def mergeMappings (currentMappings newMappings : List UserMapping) : List UserMapping :=
  newMappings.map (fun nm =>
    { nm with
      addedOn :=
        jsOrOpt ((currentMappings.find? (fun m => m.userId == nm.userId)).bind
                   (fun m => m.addedOn))
                nm.addedOn })

/-- A cursor-bearing middle page of the pagination: all fields well-formed,
`ok: true`, with the given members and continuation cursor. -/
def pageOf (p : List String × String) : PageOutcome :=
  PageOutcome.reply
    { members := some p.1, next_cursor := some p.2, ok := true, error := none }

/-- A page outcome on which the enumeration loop throws: rejected fetch,
non-OK status, `ok: false` payload, or a payload missing the member list. -/
def pageBad : PageOutcome → Bool
  | PageOutcome.fetchFail _ => true
  | PageOutcome.httpFail _ => true
  | PageOutcome.reply data => !data.ok || data.members.isNone

/-! ### Helper lemmas about the reconciliation loop -/

theorem jsOrOpt_self (x : Option String) : jsOrOpt x x = x := by
  cases x with
  | none => rfl
  | some s => by_cases h : s = "" <;> simp [jsOrOpt, h]

theorem processMember_shape (lookup : String → UserInfoOutcome)
    (ex : List UserMapping) (today u : String) :
    processMember lookup ex today u = [] ∨
    ∃ r, processMember lookup ex today u = [r] ∧ r.userId = u := by
  unfold processMember
  split
  · left; rfl
  · left; rfl
  · split
    · split
      · right; exact ⟨_, rfl, rfl⟩
      · left; rfl
    · left; rfl

theorem mem_processMember (lookup : String → UserInfoOutcome)
    (ex : List UserMapping) (today u : String) (r : UserMapping)
    (h : r ∈ processMember lookup ex today u) :
    r.userId = u ∧ processMember lookup ex today u = [r] := by
  rcases processMember_shape lookup ex today u with he | ⟨s, hs, hu⟩
  · rw [he] at h; cases h
  · rw [hs] at h
    rcases List.mem_singleton.mp h with rfl
    exact ⟨hu, hs⟩

theorem mem_processMembers (lookup : String → UserInfoOutcome)
    (ex : List UserMapping) (today : String) (ms : List String) (r : UserMapping)
    (h : r ∈ processMembers lookup ex today ms) :
    r.userId ∈ ms ∧ processMember lookup ex today r.userId = [r] := by
  induction ms with
  | nil => cases h
  | cons u rest ih =>
    simp only [processMembers] at h
    rcases List.mem_append.mp h with h1 | h2
    · obtain ⟨h3, h4⟩ := mem_processMember lookup ex today u r h1
      subst h3
      exact ⟨List.mem_cons_self _ _, h4⟩
    · obtain ⟨h3, h4⟩ := ih h2
      exact ⟨List.mem_cons_of_mem u h3, h4⟩

theorem processMember_mem_processMembers (lookup : String → UserInfoOutcome)
    (ex : List UserMapping) (today : String) (ms : List String) (u : String)
    (r : UserMapping) (hu : u ∈ ms) (hr : r ∈ processMember lookup ex today u) :
    r ∈ processMembers lookup ex today ms := by
  induction ms with
  | nil => cases hu
  | cons v rest ih =>
    simp only [processMembers, List.mem_append]
    rcases List.mem_cons.mp hu with rfl | h2
    · exact Or.inl hr
    · exact Or.inr (ih h2)

theorem processMembers_userIds_sublist (lookup : String → UserInfoOutcome)
    (ex : List UserMapping) (today : String) (ms : List String) :
    List.Sublist ((processMembers lookup ex today ms).map (fun m => m.userId)) ms := by
  induction ms with
  | nil => simp [processMembers]
  | cons u rest ih =>
    rcases processMember_shape lookup ex today u with he | ⟨r, hr, hu⟩
    · simp only [processMembers, he, List.nil_append]
      exact List.Sublist.cons u ih
    · simp only [processMembers, hr, List.singleton_append, List.map_cons, hu]
      exact List.Sublist.cons₂ u ih

theorem processMembers_congr (lookup : String → UserInfoOutcome)
    (ex1 ex2 : List UserMapping) (t1 t2 : String) (ms : List String)
    (h : ∀ u ∈ ms, processMember lookup ex1 t1 u = processMember lookup ex2 t2 u) :
    processMembers lookup ex1 t1 ms = processMembers lookup ex2 t2 ms := by
  induction ms with
  | nil => rfl
  | cons u rest ih =>
    simp only [processMembers]
    rw [h u (List.mem_cons_self u rest), ih (fun v hv => h v (List.mem_cons_of_mem u hv))]

theorem contains_userId_iff (ex : List UserMapping) (u : String) :
    ((ex.map (fun m => m.userId)).contains u) = true ↔
      (ex.find? (fun m => m.userId == u)).isSome := by
  constructor
  · intro h
    obtain ⟨m, hm1, hm2⟩ := List.mem_map.mp (List.elem_iff.mp h)
    exact List.find?_isSome.mpr ⟨m, hm1, by simp [hm2]⟩
  · intro h
    obtain ⟨m, hm1, hm2⟩ := List.find?_isSome.mp h
    have hmu : m.userId = u := by simpa using hm2
    exact List.elem_iff.mpr (List.mem_map.mpr ⟨m, hm1, hmu⟩)

theorem processMember_addedOn (lookup : String → UserInfoOutcome)
    (ex : List UserMapping) (today u : String) (r : UserMapping)
    (h : r ∈ processMember lookup ex today u) :
    r.addedOn = match ex.find? (fun m => m.userId == u) with
      | some p => p.addedOn
      | none => some today := by
  unfold processMember at h
  split at h
  · cases h
  · cases h
  · split at h
    · split at h
      · rcases List.mem_singleton.mp h with rfl
        show (if (!((ex.map (fun m => m.userId)).contains u)) = true then some today
              else (ex.find? (fun m => m.userId == u)).bind (fun m => m.addedOn)) =
             (match ex.find? (fun m => m.userId == u) with
              | some p => p.addedOn
              | none => some today)
        cases hq : ex.find? (fun m => m.userId == u) with
        | none =>
            have hc : ((ex.map (fun m => m.userId)).contains u) = false := by
              cases hcc : (ex.map (fun m => m.userId)).contains u with
              | false => rfl
              | true =>
                  exact absurd ((contains_userId_iff ex u).mp hcc) (by simp [hq])
            rw [if_pos (by rw [hc]; rfl)]
        | some p =>
            have hc : ((ex.map (fun m => m.userId)).contains u) = true :=
              (contains_userId_iff ex u).mpr (by simp [hq])
            rw [if_neg (by rw [hc]; simp)]
            rfl
      · cases h
    · cases h

theorem processMember_lookup_error (lookup : String → UserInfoOutcome)
    (ex : List UserMapping) (today u : String) (e : String)
    (h : getUserInfo (lookup u) = Except.error e) :
    processMember lookup ex today u = [] := by
  unfold processMember
  rw [h]

theorem processMember_nil_congr (lookup : String → UserInfoOutcome)
    (ex1 ex2 : List UserMapping) (t1 t2 u : String)
    (h : processMember lookup ex1 t1 u = []) :
    processMember lookup ex2 t2 u = [] := by
  cases hg : getUserInfo (lookup u) with
  | error e => simp [processMember, hg]
  | ok o =>
    cases o with
    | none => simp [processMember, hg]
    | some userInfo =>
      by_cases h1 : (!userInfo.deleted && !userInfo.is_bot) = true
      · by_cases h2 : (userInfo.profile.real_name != "") = true
        · exact absurd h (by simp [processMember, hg, h1, h2])
        · simp [processMember, hg, h1, h2]
      · simp [processMember, hg, h1]

theorem processMember_second_pass (lookup : String → UserInfoOutcome)
    (prior : List UserMapping) (t1 t2 : String) (ms : List String) (u : String)
    (hu : u ∈ ms) :
    processMember lookup (processMembers lookup prior t1 ms) t2 u
      = processMember lookup prior t1 u := by
  rcases processMember_shape lookup prior t1 u with he | ⟨r, hr, hrid⟩
  · rw [he]
    exact processMember_nil_congr lookup prior
      (processMembers lookup prior t1 ms) t1 t2 u he
  · rw [hr]
    have hrmem : r ∈ processMembers lookup prior t1 ms :=
      processMember_mem_processMembers lookup prior t1 ms u r hu
        (by rw [hr]; exact List.mem_singleton_self r)
    have hsome : ((processMembers lookup prior t1 ms).find?
        (fun m => m.userId == u)).isSome :=
      List.find?_isSome.mpr ⟨r, hrmem, by simp [hrid]⟩
    obtain ⟨p, hp⟩ := Option.isSome_iff_exists.mp hsome
    have hpmem : p ∈ processMembers lookup prior t1 ms :=
      List.mem_of_find?_eq_some hp
    have hpid : p.userId = u := by
      have := List.find?_some hp
      simpa using this
    have hpr : p = r := by
      obtain ⟨_, hpe⟩ := mem_processMembers lookup prior t1 ms p hpmem
      rw [hpid, hr] at hpe
      simpa using hpe.symm
    have hcontains : (((processMembers lookup prior t1 ms).map
        (fun m => m.userId)).contains u) = true :=
      (contains_userId_iff _ u).mpr hsome
    cases hg : getUserInfo (lookup u) with
    | error e =>
        exact absurd hr (by simp [processMember_lookup_error lookup prior t1 u e hg])
    | ok o =>
      cases o with
      | none => exact absurd hr (by simp [processMember, hg])
      | some userInfo =>
        by_cases h1 : (!userInfo.deleted && !userInfo.is_bot) = true
        · by_cases h2 : (userInfo.profile.real_name != "") = true
          · have hrval : r =
                (⟨userInfo.profile.real_name, "@" ++ userInfo.name, u,
                  if (!((prior.map (fun m => m.userId)).contains u)) = true
                  then some t1
                  else (prior.find? (fun m => m.userId == u)).bind
                         (fun m => m.addedOn)⟩ : UserMapping) := by
              have hfirst : processMember lookup prior t1 u =
                  [(⟨userInfo.profile.real_name, "@" ++ userInfo.name, u,
                    if (!((prior.map (fun m => m.userId)).contains u)) = true
                    then some t1
                    else (prior.find? (fun m => m.userId == u)).bind
                           (fun m => m.addedOn)⟩ : UserMapping)] := by
                simp [processMember, hg, h1, h2]
              rw [hr] at hfirst
              simpa using hfirst
            show processMember lookup (processMembers lookup prior t1 ms) t2 u = [r]
            have hstep : processMember lookup (processMembers lookup prior t1 ms) t2 u
                = [(⟨userInfo.profile.real_name, "@" ++ userInfo.name, u,
                    ((processMembers lookup prior t1 ms).find?
                      (fun m => m.userId == u)).bind (fun m => m.addedOn)⟩ :
                    UserMapping)] := by
              simp only [processMember, hg, h1, h2]
              simp
              intro hall
              exact absurd hrid (hall r hrmem)
            rw [hstep, hp, hpr]
            rw [hrval]
            simp
          · exact absurd hr (by simp [processMember, hg, h1, h2])
        · exact absurd hr (by simp [processMember, hg, h1])

/-! ### Helper lemmas about enumeration and the pipeline -/

theorem getMembersLoop_concat (lastPage : SlackMembersResponse)
    (lastMembers : List String) (hok : lastPage.ok = true)
    (hm : lastPage.members = some lastMembers)
    (hc : jsTruthy lastPage.next_cursor = false) (junk : List PageOutcome) :
    ∀ mids : List (List String × String), (∀ q ∈ mids, q.2 ≠ "") →
      ∀ acc : List String,
        getMembersLoop acc (mids.map pageOf ++ PageOutcome.reply lastPage :: junk)
          = Except.ok (acc ++ (mids.map Prod.fst).flatten ++ lastMembers,
                       mids.length + 1) := by
  intro mids
  induction mids with
  | nil =>
      intro _ acc
      simp [getMembersLoop, hok, hm, hc]
  | cons q rest ih =>
      intro hne acc
      have hq2 : q.2 ≠ "" := hne q (List.mem_cons_self q rest)
      have ht : jsTruthy (some q.2) = true := by simp [jsTruthy, hq2]
      have ih2 := ih (fun p hp => hne p (List.mem_cons_of_mem q hp)) (acc ++ q.1)
      simp only [List.map_cons, List.cons_append, getMembersLoop, pageOf, ht,
        if_true, List.append_eq]
      rw [ih2]
      simp [List.append_assoc]

theorem getMembersLoop_bad (bad : PageOutcome) (hbad : pageBad bad = true)
    (rest : List PageOutcome) :
    ∀ mids : List (List String × String), (∀ q ∈ mids, q.2 ≠ "") →
      ∀ acc : List String,
        ∃ e, getMembersLoop acc (mids.map pageOf ++ bad :: rest) = Except.error e := by
  intro mids
  induction mids with
  | nil =>
      intro _ acc
      cases bad with
      | fetchFail msg => exact ⟨_, rfl⟩
      | httpFail st => exact ⟨_, rfl⟩
      | reply data =>
          cases hok : data.ok with
          | false =>
              exact ⟨"Slack API error: " ++ jsOrStr data.error "Unknown error",
                by simp [getMembersLoop, hok]⟩
          | true =>
              cases hmem : data.members with
              | none =>
                  exact ⟨"No members found in response",
                    by simp [getMembersLoop, hok, hmem]⟩
              | some ms =>
                  exact absurd hbad (by simp [pageBad, hok, hmem])
  | cons q rest2 ih =>
      intro hne acc
      have hq2 : q.2 ≠ "" := hne q (List.mem_cons_self q rest2)
      have ht : jsTruthy (some q.2) = true := by simp [jsTruthy, hq2]
      obtain ⟨e, he⟩ := ih (fun p hp => hne p (List.mem_cons_of_mem q hp)) (acc ++ q.1)
      refine ⟨e, ?_⟩
      simp only [List.map_cons, List.cons_append, getMembersLoop, pageOf, ht,
        if_true, List.append_eq]
      rw [he]

theorem mapUserTagsToIds_enum_error (pages : List PageOutcome)
    (lookup : String → UserInfoOutcome) (readO : ReadOutcome)
    (writeO : List UserMapping → StoreOutcome) (today e : String)
    (h : getChannelMembers pages = Except.error e) :
    mapUserTagsToIds pages lookup readO writeO today = Except.error e := by
  unfold mapUserTagsToIds
  rw [h]

theorem mapUserTagsToIds_ok (pages : List PageOutcome)
    (lookup : String → UserInfoOutcome) (readO : ReadOutcome)
    (writeO : List UserMapping → StoreOutcome) (today : String)
    (members : List String) (n : Nat)
    (h : getChannelMembers pages = Except.ok (members, n))
    (hw : storeMappings
        (writeO (processMembers lookup (getStoredMappings readO) today members))
      = Except.ok ()) :
    mapUserTagsToIds pages lookup readO writeO today
      = Except.ok (processMembers lookup (getStoredMappings readO) today members) := by
  unfold mapUserTagsToIds
  rw [h]
  simp [hw]

theorem mapUserTagsToIds_store_error (pages : List PageOutcome)
    (lookup : String → UserInfoOutcome) (readO : ReadOutcome)
    (writeO : List UserMapping → StoreOutcome) (today e : String)
    (members : List String) (n : Nat)
    (h : getChannelMembers pages = Except.ok (members, n))
    (hw : storeMappings
        (writeO (processMembers lookup (getStoredMappings readO) today members))
      = Except.error e) :
    mapUserTagsToIds pages lookup readO writeO today = Except.error e := by
  unfold mapUserTagsToIds
  rw [h]
  simp [hw]

/-- Whether the profile lookup for an identifier resolves (the per-identifier
`try` body completes) rather than throwing. -/
def lookupResolved (lookup : String → UserInfoOutcome) (u : String) : Bool :=
  match getUserInfo (lookup u) with
  | Except.ok _ => true
  | Except.error _ => false

theorem processMembers_filter_failures (lookup : String → UserInfoOutcome)
    (ex : List UserMapping) (today : String) (ms : List String) :
    processMembers lookup ex today ms
      = processMembers lookup ex today (ms.filter (lookupResolved lookup)) := by
  induction ms with
  | nil => rfl
  | cons u rest ih =>
      rcases hg : getUserInfo (lookup u) with e | o
      · have hres : lookupResolved lookup u = false := by simp [lookupResolved, hg]
        simp only [List.filter_cons, hres]
        simp only [processMembers, processMember_lookup_error lookup ex today u e hg,
          List.nil_append]
        simpa using ih
      · have hres : lookupResolved lookup u = true := by simp [lookupResolved, hg]
        simp only [List.filter_cons, hres]
        simp only [processMembers, if_true]
        rw [ih]

theorem mergeMappings_reconcile (lookup : String → UserInfoOutcome)
    (stored : List UserMapping) (today : String) (ms : List String) :
    mergeMappings stored (processMembers lookup stored today ms)
      = processMembers lookup stored today ms := by
  unfold mergeMappings
  have h : ∀ nm ∈ processMembers lookup stored today ms,
      ({ nm with addedOn :=
          jsOrOpt ((stored.find? (fun m => m.userId == nm.userId)).bind
            (fun m => m.addedOn)) nm.addedOn } : UserMapping) = nm := by
    intro nm hnm
    have hid := mem_processMembers lookup stored today ms nm hnm
    have haddedOn := processMember_addedOn lookup stored today nm.userId nm
      (by rw [hid.2]; exact List.mem_singleton_self nm)
    cases hq : stored.find? (fun m => m.userId == nm.userId) with
    | none => rfl
    | some p =>
        have h2 : nm.addedOn = p.addedOn := by rw [hq] at haddedOn; exact haddedOn
        show ({ nm with addedOn := jsOrOpt p.addedOn nm.addedOn } : UserMapping) = nm
        rw [h2, jsOrOpt_self, ← h2]
  rw [List.map_congr_left h]
  simp

/-! ### Concrete environments used by witnesses and counterexamples -/

/-- A human user with a regular profile. -/
def aliceUser : SlackUser :=
  ⟨"U1", "alice", ⟨"Alice A", "alice"⟩, false, false⟩

/-- A bot account. -/
def bobBot : SlackUser :=
  ⟨"U2", "bob", ⟨"Bob B", "bob"⟩, true, false⟩

/-- A human user whose real name is a single space: blank but not empty. -/
def blankUser : SlackUser :=
  ⟨"U7", "blanky", ⟨" ", "blanky"⟩, false, false⟩

/-- A successful `users.info` outcome carrying the given user. -/
def okReply (u : SlackUser) : UserInfoOutcome :=
  UserInfoOutcome.reply ⟨some u, true, none⟩

/-- A sample lookup environment: U1 is a human, U2 a bot, U7 a human with a
blank name, and every other identifier fails with a rejected fetch. -/
def sampleLookup : String → UserInfoOutcome := fun u =>
  if u = "U1" then okReply aliceUser
  else if u = "U2" then okReply bobBot
  else if u = "U7" then okReply blankUser
  else UserInfoOutcome.fetchFail "Failed to fetch"

/-- A prior mapping set holding U1 with a first-seen date. -/
def priorAlice : List UserMapping :=
  [⟨"Alice A", "@alice", "U1", some "2024-01-01"⟩]

/-- A prior mapping set holding U1 and a departed member U9. -/
def priorWithDeparted : List UserMapping :=
  [⟨"Alice A", "@alice", "U1", some "2024-01-01"⟩,
   ⟨"Zed Z", "@zed", "U9", some "2023-05-05"⟩]

/-- A one-page enumeration answering with U1 and the failing identifier UX. -/
def pagesW : List PageOutcome :=
  [PageOutcome.reply ⟨some ["U1", "UX"], none, true, none⟩]

/-! ### Claim theorems -/

/-- C1: every mapping emitted by reconciliation carries the prior record's
`addedOn` when its `userId` already existed in `priorMappings` and the current
date otherwise; consequently a second reconciliation run over the same
enumeration and lookup outcomes, fed the first run's output as its prior
mappings, reproduces the first output record for record, so `addedOn` is
identical for every shared identifier. -/
theorem reconcile_addedOn_preserved_and_idempotent
    (lookup : String → UserInfoOutcome) (prior : List UserMapping)
    (t1 t2 : String) (members : List String) :
    (∀ r ∈ processMembers lookup prior t1 members,
        r.addedOn = match prior.find? (fun m => m.userId == r.userId) with
          | some p => p.addedOn
          | none => some t1) ∧
    processMembers lookup (processMembers lookup prior t1 members) t2 members
      = processMembers lookup prior t1 members := by
  constructor
  · intro r hr
    obtain ⟨hmem, hpm⟩ := mem_processMembers lookup prior t1 members r hr
    exact processMember_addedOn lookup prior t1 r.userId r
      (by rw [hpm]; exact List.mem_singleton_self r)
  · exact processMembers_congr lookup _ prior t2 t1 members
      (fun u hu => processMember_second_pass lookup prior t1 t2 members u hu)

/-- Witness for C1 at a concrete input: U1 already mapped on 2024-01-01 keeps
that date through a pass on 2025-02-02, and a second pass on 2025-03-03 fed
the first output reproduces it. -/
theorem reconcile_addedOn_witness :
    (⟨"Alice A", "@alice", "U1", some "2024-01-01"⟩ : UserMapping).addedOn
        = (match priorAlice.find? (fun m => m.userId == "U1") with
           | some p => p.addedOn
           | none => some "2025-02-02") ∧
    processMembers sampleLookup
        (processMembers sampleLookup priorAlice "2025-02-02" ["U1", "U2"])
        "2025-03-03" ["U1", "U2"]
      = processMembers sampleLookup priorAlice "2025-02-02" ["U1", "U2"] := by
  refine ⟨?_,
    (reconcile_addedOn_preserved_and_idempotent sampleLookup priorAlice
      "2025-02-02" "2025-03-03" ["U1", "U2"]).2⟩
  exact (reconcile_addedOn_preserved_and_idempotent sampleLookup priorAlice
      "2025-02-02" "2025-03-03" ["U1", "U2"]).1
    ⟨"Alice A", "@alice", "U1", some "2024-01-01"⟩ (by decide)

/-- C2: an identifier present in the prior mappings but absent from the new
enumeration is absent from the reconciliation output, and the server-side
persistence of that output rewrites the stored file to exactly the output
(full replacement, not additive union). -/
theorem reconcile_replacement
    (lookup : String → UserInfoOutcome) (stored : List UserMapping)
    (today x : String) (members : List String)
    (hx : x ∈ stored.map (fun m => m.userId)) (hnot : x ∉ members) :
    x ∉ (processMembers lookup stored today members).map (fun m => m.userId) ∧
    mergeMappings stored (processMembers lookup stored today members)
      = processMembers lookup stored today members := by
  constructor
  · intro hmem
    exact hnot ((processMembers_userIds_sublist lookup stored today members).subset hmem)
  · exact mergeMappings_reconcile lookup stored today members

/-- Witness for C2 at a concrete input: departed member U9 is dropped and the
persisted file equals the output. -/
theorem reconcile_replacement_witness :
    "U9" ∉ (processMembers sampleLookup priorWithDeparted "2025-02-02" ["U1"]).map
        (fun m => m.userId) ∧
    mergeMappings priorWithDeparted
        (processMembers sampleLookup priorWithDeparted "2025-02-02" ["U1"])
      = processMembers sampleLookup priorWithDeparted "2025-02-02" ["U1"] :=
  reconcile_replacement sampleLookup priorWithDeparted "2025-02-02" "U9" ["U1"]
    (by decide) (by decide)

/-- C5: when the enumerated identifier sequence has no duplicates, the
reconciliation output has at most one mapping per identifier. -/
theorem reconcile_unique_userIds
    (lookup : String → UserInfoOutcome) (ex : List UserMapping)
    (today : String) (members : List String) (h : members.Nodup) :
    ((processMembers lookup ex today members).map (fun m => m.userId)).Nodup :=
  List.Nodup.sublist (processMembers_userIds_sublist lookup ex today members) h

/-- Witness for C5 at a concrete duplicate-free enumeration. -/
theorem reconcile_unique_userIds_witness :
    ((processMembers sampleLookup [] "2024-01-01" ["U1", "U2", "U7"]).map
      (fun m => m.userId)).Nodup :=
  reconcile_unique_userIds sampleLookup [] "2024-01-01" ["U1", "U2", "U7"] (by decide)

/-- C3 counterexample: a whitespace-only real name (" ") is blank but not
empty, and the reconciler emits a mapping for it — `if (realName)` only
filters the empty string, so "blank" names are not filtered as the claim
states. -/
theorem blank_name_emitted :
    processMembers sampleLookup [] "2024-01-01" ["U7"]
      = [⟨" ", "@blanky", "U7", some "2024-01-01"⟩] ∧
    processMembers sampleLookup [] "2024-01-01" ["U7"] ≠ [] := by
  constructor
  · decide
  · decide

/-- C3 (amended): a resolved profile with `isBot`, `isDeleted`, or a real name
equal to the empty string (and only the empty string — whitespace-only names
pass) produces no mapping for that identifier; otherwise exactly one mapping
is emitted with the resolved real name and `"@" ++ handle`; emission order
follows the identifier sequence order (the output's `userId` projection is a
sublist of the input sequence). -/
theorem reconcile_filtering_and_order
    (lookup : String → UserInfoOutcome) (ex : List UserMapping)
    (today : String) (members : List String) (u : String) (user : SlackUser)
    (h : getUserInfo (lookup u) = Except.ok (some user)) :
    (user.is_bot = true ∨ user.deleted = true ∨ user.profile.real_name = "" →
        processMember lookup ex today u = []) ∧
    (user.is_bot = false → user.deleted = false → user.profile.real_name ≠ "" →
        processMember lookup ex today u
          = [(⟨user.profile.real_name, "@" ++ user.name, u,
              if (!((ex.map (fun m => m.userId)).contains u)) = true
              then some today
              else (ex.find? (fun m => m.userId == u)).bind
                     (fun m => m.addedOn)⟩ : UserMapping)]) ∧
    List.Sublist ((processMembers lookup ex today members).map (fun m => m.userId))
      members := by
  refine ⟨?_, ?_, processMembers_userIds_sublist lookup ex today members⟩
  · intro hskip
    rcases hskip with hb | hd | hn
    · simp [processMember, h, hb]
    · simp [processMember, h, hd]
    · simp [processMember, h, hn]
  · intro hb hd hn
    simp [processMember, h, hb, hd, hn]

/-- Witness for the amended C3: the bot U2 is skipped, the human U1 is
emitted with resolved name and tag. -/
theorem reconcile_filtering_witness :
    processMember sampleLookup [] "2024-01-01" "U2" = [] ∧
    processMember sampleLookup [] "2024-01-01" "U1"
      = [⟨"Alice A", "@alice", "U1", some "2024-01-01"⟩] := by
  constructor
  · exact (reconcile_filtering_and_order sampleLookup [] "2024-01-01" [] "U2" bobBot
      rfl).1 (Or.inl (by decide))
  · have hstep := (reconcile_filtering_and_order sampleLookup [] "2024-01-01" []
      "U1" aliceUser rfl).2.1 (by decide) (by decide) (by decide)
    rw [hstep]
    decide

/-- C4: the enumerator requests pages in order, one request per page response,
concatenates the members of all returned pages in request order, continues
exactly while a (truthy) continuation cursor is returned, and stops at the
first page without one — responses beyond it are never requested.  In
particular a cursor returned exactly once yields exactly two requests.  (The
constant `limit: '200'` of the request body is not part of the response-level
model; page sizes are unconstrained here.) -/
theorem enumeration_paginates
    (mids : List (List String × String)) (lastPage : SlackMembersResponse)
    (lastMembers : List String) (junk : List PageOutcome)
    (hmids : ∀ q ∈ mids, q.2 ≠ "") (hok : lastPage.ok = true)
    (hm : lastPage.members = some lastMembers)
    (hc : jsTruthy lastPage.next_cursor = false) :
    getChannelMembers (mids.map pageOf ++ PageOutcome.reply lastPage :: junk)
      = Except.ok ((mids.map Prod.fst).flatten ++ lastMembers, mids.length + 1) := by
  have h := getMembersLoop_concat lastPage lastMembers hok hm hc junk mids hmids []
  simpa [getChannelMembers] using h

/-- Witness for C4: the two-page scenario — a cursor returned exactly once
forces exactly two requests, and both pages are concatenated in request
order. -/
theorem enumeration_paginates_witness :
    getChannelMembers [pageOf (["U1", "U2"], "c1"),
        PageOutcome.reply ⟨some ["U3"], none, true, none⟩]
      = Except.ok (["U1", "U2", "U3"], 2) := by
  have h := enumeration_paginates [(["U1", "U2"], "c1")]
    ⟨some ["U3"], none, true, none⟩ ["U3"] [] (by decide) rfl rfl rfl
  simpa using h

/-- C6: a profile-resolution failure for an identifier is caught inside the
per-identifier loop — reconciliation still returns a result (built as if the
failing identifiers were filtered out of the enumeration) and the failure
does not propagate out of `mapUserTagsToIds` as long as enumeration and the
final store succeed. -/
theorem reconcile_partial_failure
    (pages : List PageOutcome) (lookup : String → UserInfoOutcome)
    (readO : ReadOutcome) (writeO : List UserMapping → StoreOutcome)
    (today : String) (members : List String) (n : Nat)
    (henum : getChannelMembers pages = Except.ok (members, n))
    (hwrite : storeMappings
        (writeO (processMembers lookup (getStoredMappings readO) today members))
      = Except.ok ()) :
    mapUserTagsToIds pages lookup readO writeO today
      = Except.ok (processMembers lookup (getStoredMappings readO) today members) ∧
    processMembers lookup (getStoredMappings readO) today members
      = processMembers lookup (getStoredMappings readO) today
          (members.filter (lookupResolved lookup)) :=
  ⟨mapUserTagsToIds_ok pages lookup readO writeO today members n henum hwrite,
   processMembers_filter_failures lookup (getStoredMappings readO) today members⟩

/-- Witness for C6: with U1 resolving and UX failing, reconciliation still
returns successfully and its output equals the run on the failing identifier
filtered out. -/
theorem reconcile_partial_failure_witness :
    mapUserTagsToIds pagesW sampleLookup (ReadOutcome.replied [])
        (fun _ => StoreOutcome.replied true) "2024-01-01"
      = Except.ok (processMembers sampleLookup [] "2024-01-01" ["U1", "UX"]) ∧
    processMembers sampleLookup [] "2024-01-01" ["U1", "UX"]
      = processMembers sampleLookup [] "2024-01-01"
          (["U1", "UX"].filter (lookupResolved sampleLookup)) :=
  reconcile_partial_failure pagesW sampleLookup (ReadOutcome.replied [])
    (fun _ => StoreOutcome.replied true) "2024-01-01" ["U1", "UX"] 1 rfl rfl

/-- C7: any page-level failure — rejected request, non-OK status, `ok: false`
payload, or a payload without the member list — makes the whole enumeration
fail after any number of successful cursor-bearing pages: no partial
accumulated member list is returned, nothing past the failing page is
consumed (no retry), and the same error aborts the entire reconciliation. -/
theorem enumeration_failure_terminal
    (mids : List (List String × String)) (bad : PageOutcome)
    (rest : List PageOutcome) (lookup : String → UserInfoOutcome)
    (readO : ReadOutcome) (writeO : List UserMapping → StoreOutcome)
    (today : String) (hmids : ∀ q ∈ mids, q.2 ≠ "") (hbad : pageBad bad = true) :
    ∃ e, getChannelMembers (mids.map pageOf ++ bad :: rest) = Except.error e ∧
      mapUserTagsToIds (mids.map pageOf ++ bad :: rest) lookup readO writeO today
        = Except.error e := by
  obtain ⟨e, he⟩ := getMembersLoop_bad bad hbad rest mids hmids []
  exact ⟨e, he,
    mapUserTagsToIds_enum_error _ lookup readO writeO today e he⟩

/-- Witness for C7: a second page missing the member list aborts enumeration
and reconciliation alike. -/
theorem enumeration_failure_terminal_witness :
    ∃ e, getChannelMembers [pageOf (["U1"], "c"),
          PageOutcome.reply ⟨none, none, true, none⟩] = Except.error e ∧
      mapUserTagsToIds [pageOf (["U1"], "c"),
          PageOutcome.reply ⟨none, none, true, none⟩] sampleLookup
          (ReadOutcome.replied []) (fun _ => StoreOutcome.replied true) "2024-01-01"
        = Except.error e := by
  have h := enumeration_failure_terminal [(["U1"], "c")]
    (PageOutcome.reply ⟨none, none, true, none⟩) [] sampleLookup
    (ReadOutcome.replied []) (fun _ => StoreOutcome.replied true) "2024-01-01"
    (by decide) (by decide)
  simpa using h

/-- C8 counterexample: a persistence read failure is NOT fatal — the client's
`getStoredMappings` catches it and returns the empty list, so reconciliation
completes successfully (every member is treated as new) instead of surfacing
the failure. -/
theorem read_failure_recovered :
    mapUserTagsToIds pagesW sampleLookup (ReadOutcome.fetchFail "Failed to fetch")
        (fun _ => StoreOutcome.replied true) "2024-01-01"
      = Except.ok [⟨"Alice A", "@alice", "U1", some "2024-01-01"⟩] := by
  rfl

/-- C8 (amended): enumeration failures and persistence write failures are
fatal to the reconciliation and surfaced to the caller unrecovered, while a
persistence read failure is recovered locally: reconciliation proceeds
exactly as if the stored mapping set were empty. -/
theorem fatal_and_recovered_errors
    (pages : List PageOutcome) (lookup : String → UserInfoOutcome)
    (readO : ReadOutcome) (writeO : List UserMapping → StoreOutcome)
    (today e1 e2 msg : String) (members : List String) (n : Nat) :
    (getChannelMembers pages = Except.error e1 →
        mapUserTagsToIds pages lookup readO writeO today = Except.error e1) ∧
    (getChannelMembers pages = Except.ok (members, n) →
      storeMappings
          (writeO (processMembers lookup (getStoredMappings readO) today members))
        = Except.error e2 →
      mapUserTagsToIds pages lookup readO writeO today = Except.error e2) ∧
    mapUserTagsToIds pages lookup (ReadOutcome.fetchFail msg) writeO today
      = mapUserTagsToIds pages lookup (ReadOutcome.replied []) writeO today := by
  refine ⟨fun h => mapUserTagsToIds_enum_error pages lookup readO writeO today e1 h,
    fun h hw => mapUserTagsToIds_store_error pages lookup readO writeO today e2
      members n h hw, rfl⟩

/-- Witness for the amended C8: a non-OK page response aborts the run with
its error, a rejected persistence write aborts with its error, and a failed
read behaves exactly like an empty store. -/
theorem fatal_and_recovered_errors_witness :
    mapUserTagsToIds [PageOutcome.httpFail "Internal Server Error"] sampleLookup
        (ReadOutcome.replied []) (fun _ => StoreOutcome.replied true) "2024-01-01"
      = Except.error "Failed to fetch members: Internal Server Error" ∧
    mapUserTagsToIds pagesW sampleLookup (ReadOutcome.replied [])
        (fun _ => StoreOutcome.fetchFail "boom") "2024-01-01"
      = Except.error "boom" ∧
    mapUserTagsToIds pagesW sampleLookup (ReadOutcome.fetchFail "offline")
        (fun _ => StoreOutcome.replied true) "2024-01-01"
      = mapUserTagsToIds pagesW sampleLookup (ReadOutcome.replied [])
          (fun _ => StoreOutcome.replied true) "2024-01-01" := by
  refine ⟨(fatal_and_recovered_errors [PageOutcome.httpFail "Internal Server Error"]
      sampleLookup (ReadOutcome.replied []) (fun _ => StoreOutcome.replied true)
      "2024-01-01" "Failed to fetch members: Internal Server Error" "" ""
      [] 0).1 rfl,
    (fatal_and_recovered_errors pagesW sampleLookup (ReadOutcome.replied [])
      (fun _ => StoreOutcome.fetchFail "boom") "2024-01-01" "" "boom" ""
      ["U1", "UX"] 1).2.1 rfl rfl,
    (fatal_and_recovered_errors pagesW sampleLookup (ReadOutcome.replied [])
      (fun _ => StoreOutcome.replied true) "2024-01-01" "" "" "offline"
      [] 0).2.2⟩

/-- C9 counterexample: the enumerator does not de-duplicate — an identifier
returned on two pages appears twice in the output sequence. -/
theorem enumeration_keeps_duplicates :
    getChannelMembers [pageOf (["U1"], "c"),
        PageOutcome.reply ⟨some ["U1"], none, true, none⟩]
      = Except.ok (["U1", "U1"], 2) ∧
    ¬ (["U1", "U1"] : List String).Nodup := by
  constructor
  · rfl
  · decide

/-- C9 (amended): the enumerator's output is the concatenation of the pages
in server order with no de-duplication: each identifier occurs in the output
exactly as many times as it occurs across all pages together. -/
theorem enumeration_counts_sum
    (mids : List (List String × String)) (lastPage : SlackMembersResponse)
    (lastMembers : List String) (junk : List PageOutcome) (u : String)
    (hmids : ∀ q ∈ mids, q.2 ≠ "") (hok : lastPage.ok = true)
    (hm : lastPage.members = some lastMembers)
    (hc : jsTruthy lastPage.next_cursor = false) :
    ∃ ms, getChannelMembers (mids.map pageOf ++ PageOutcome.reply lastPage :: junk)
        = Except.ok (ms, mids.length + 1) ∧
      ms.count u = ((mids.map Prod.fst).map (List.count u)).sum
        + lastMembers.count u := by
  refine ⟨(mids.map Prod.fst).flatten ++ lastMembers, ?_, ?_⟩
  · have h := getMembersLoop_concat lastPage lastMembers hok hm hc junk mids hmids []
    simpa [getChannelMembers] using h
  · rw [List.count_append, List.count_flatten]

/-- Witness for the amended C9: U1 on both pages is counted twice in the
enumeration output. -/
theorem enumeration_counts_sum_witness :
    ∃ ms, getChannelMembers [pageOf (["U1"], "c"),
          PageOutcome.reply ⟨some ["U1"], none, true, none⟩]
        = Except.ok (ms, 2) ∧
      ms.count "U1" = 2 := by
  have h := enumeration_counts_sum [(["U1"], "c")]
    ⟨some ["U1"], none, true, none⟩ ["U1"] [] "U1" (by decide) rfl rfl rfl
  simpa using h

/-- C10: when the prior record found for a re-observed `userId` has no
`addedOn`, the emitted mapping also has no `addedOn` — the missing first-seen
date is copied as-is, not backfilled with the current date. -/
theorem absent_addedOn_not_backfilled
    (lookup : String → UserInfoOutcome) (ex : List UserMapping)
    (today u : String) (user : SlackUser) (r : UserMapping)
    (h : getUserInfo (lookup u) = Except.ok (some user))
    (hb : user.is_bot = false) (hd : user.deleted = false)
    (hn : user.profile.real_name ≠ "")
    (hfind : ex.find? (fun m => m.userId == u) = some r)
    (hnone : r.addedOn = none) :
    processMember lookup ex today u
      = [⟨user.profile.real_name, "@" ++ user.name, u, none⟩] := by
  have hrmem : r ∈ ex := List.mem_of_find?_eq_some hfind
  have hrid : r.userId = u := by
    have := List.find?_some hfind
    simpa using this
  have hstep : processMember lookup ex today u
      = [(⟨user.profile.real_name, "@" ++ user.name, u,
          (ex.find? (fun m => m.userId == u)).bind (fun m => m.addedOn)⟩ :
          UserMapping)] := by
    simp only [processMember, h]
    simp [hb, hd, hn]
    intro hall
    exact absurd hrid (hall r hrmem)
  rw [hstep, hfind]
  simp [hnone]

/-- Witness for C10: a prior record for U1 without a date is re-emitted
without a date. -/
theorem absent_addedOn_witness :
    processMember sampleLookup [⟨"Alice A", "@alice", "U1", none⟩]
        "2024-06-06" "U1"
      = [⟨"Alice A", "@alice", "U1", none⟩] :=
  absent_addedOn_not_backfilled sampleLookup
    [⟨"Alice A", "@alice", "U1", none⟩] "2024-06-06" "U1" aliceUser
    ⟨"Alice A", "@alice", "U1", none⟩ rfl rfl rfl (by decide) (by decide) rfl
